import Mathlib

/-!
Verification development for the pysweepme Port/PortManager subsystem
(`Ports.py`, `PortManager.py`).  Python dictionaries holding port
properties are embedded as insertion-ordered association lists over an
inductive value type; each modelled function mirrors its Python source.
All definitions are executable so that concrete scenarios can be settled
by evaluation.
-/

set_option maxRecDepth 8000

namespace PySweepMe

/-- Values stored in a port-properties dictionary: Python `None`, booleans,
integers, rationals (the Python floats appearing in the code are decimal
constants), and strings. -/
inductive PValue where
  | pnone : PValue
  | pbool : Bool → PValue
  | pint : Int → PValue
  | prat : ℚ → PValue
  | pstr : String → PValue
  deriving DecidableEq, Repr

/-- A Python `dict[str, Any]` restricted to the values the port code stores:
an insertion-ordered association list.  Python dicts have unique keys; every
dict in this development is built from literal lists with distinct keys via
`dictSet`/`dictUpdate`, which preserve that shape. -/
abbrev Props := List (String × PValue)

/-- `d[k] = v` on a Python dict: overwrite the value at an existing key in
place (keeping insertion order), otherwise append the new key at the end. -/
def dictSet : Props → String → PValue → Props
  | [], k, v => [(k, v)]
  | kv :: t, k, v => if kv.1 = k then (k, v) :: t else kv :: dictSet t k v

/-- `d.update(p)` on Python dicts: fold `dictSet` over the entries of `p`. -/
def dictUpdate (d : Props) (p : Props) : Props :=
  p.foldl (fun acc kv => dictSet acc kv.1 kv.2) d

/-- `d[k]` lookup: the value at the first occurrence of key `k`. -/
def dictGet : Props → String → Option PValue
  | [], _ => none
  | kv :: t, k => if kv.1 = k then some kv.2 else dictGet t k

/-- `k in d` on a Python dict. -/
def dictHasKey (d : Props) (k : String) : Bool :=
  (dictGet d k).isSome

/-- The keys of a dict, in insertion order (`list(d)` in Python). -/
def dictKeys (d : Props) : List String :=
  d.map Prod.fst

/-- First-choice combinator on optional values (used to state how an
`update` overlays one dict on another). -/
def oget (o d : Option PValue) : Option PValue :=
  match o with
  | some v => some v
  | none => d

/-- The value at the *last* occurrence of key `k`: the value that survives
when the list is fed to `dict.update` as the overriding argument. -/
def dictGetLast : Props → String → Option PValue
  | [], _ => none
  | kv :: t, k => oget (dictGetLast t k) (if kv.1 = k then some kv.2 else none)

/-! ### PortType static defaults (Ports.py lines 265–515)

In `Ports.py` every `PortType` subclass executes `properties =
PortType.properties` followed by `properties.update({...})` in its class
body, so all subclasses alias *one* dictionary object and the updates of
every class body (executed in file order at import time: COM, GPIB, PXI,
ASRL, USBTMC, TCPIP, SOCKET) accumulate in it.  The aliasing is embedded
by defining each class's `properties` as the single shared map obtained
by applying all updates in order. -/

/-- `PortType.properties` literal (Ports.py lines 270–288). -/
def portTypeBaseProps : Props :=
  [("VID", .pnone), ("PID", .pnone), ("RegID", .pnone),
   ("Manufacturer", .pnone), ("Product", .pnone), ("Description", .pnone),
   ("identification", .pnone), ("query", .pnone), ("Exception", .pbool true),
   ("EOL", .pstr "\n"), ("EOLwrite", .pnone), ("EOLread", .pnone),
   ("timeout", .pint 2), ("delay", .prat 0), ("rstrip", .pbool true),
   ("debug", .pbool false), ("clear", .pbool true)]

/-- The argument of `COM`'s class-body `properties.update` (lines 319–332). -/
def comUpdateProps : Props :=
  [("baudrate", .pint 9600), ("bytesize", .pint 8), ("parity", .pstr "N"),
   ("stopbits", .pint 1), ("xonxoff", .pbool false), ("rtscts", .pbool false),
   ("dsrdtr", .pbool false), ("rts", .pbool true), ("dtr", .pbool true),
   ("raw_write", .pbool false), ("raw_read", .pbool false),
   ("encoding", .pstr "latin-1")]

/-- The argument of `GPIB`'s class-body `properties.update` (lines 364–367). -/
def gpibUpdateProps : Props :=
  [("GPIB_EOLwrite", .pnone), ("GPIB_EOLread", .pnone)]

/-- The argument of `PXI`'s class-body `properties.update` (line 395). -/
def pxiUpdateProps : Props := []

/-- The argument of `ASRL`'s class-body `properties.update` (lines 419–425). -/
def asrlUpdateProps : Props :=
  [("baudrate", .pint 9600), ("bytesize", .pint 8), ("stopbits", .pint 1),
   ("parity", .pstr "N")]

/-- The argument of `TCPIP`'s class-body `properties.update` (lines 477–480). -/
def tcpipUpdateProps : Props :=
  [("TCPIP_EOLwrite", .pnone), ("TCPIP_EOLread", .pnone)]

/-- The argument of `SOCKET`'s class-body `properties.update` (lines 499–503). -/
def socketUpdateProps : Props :=
  [("encoding", .pstr "latin-1"), ("SOCKET_EOLwrite", .pnone),
   ("SOCKET_EOLread", .pnone)]

/-- The one shared properties dictionary after module import: the base map
mutated by every class body's update, in file order.  `USBTMC` issues no
update of its own. -/
def sharedProperties : Props :=
  [comUpdateProps, gpibUpdateProps, pxiUpdateProps, asrlUpdateProps,
   tcpipUpdateProps, socketUpdateProps].foldl dictUpdate portTypeBaseProps

/-- `COM.properties` after import (an alias of the shared dict). -/
def COM_properties : Props := sharedProperties

/-- `GPIB.properties` after import (an alias of the shared dict). -/
def GPIB_properties : Props := sharedProperties

/-- `PXI.properties` after import (an alias of the shared dict). -/
def PXI_properties : Props := sharedProperties

/-- `ASRL.properties` after import (an alias of the shared dict). -/
def ASRL_properties : Props := sharedProperties

/-- `USBTMC.properties` after import (an alias of the shared dict). -/
def USBTMC_properties : Props := sharedProperties

/-- `TCPIP.properties` after import (an alias of the shared dict). -/
def TCPIP_properties : Props := sharedProperties

/-- `SOCKET.properties` after import (an alias of the shared dict). -/
def SOCKET_properties : Props := sharedProperties

/-! ### `is_IP` (Ports.py lines 152–172)

`is_IP` strips the input and runs `re.search` with the pattern
`(\d{1,3}).(\d{1,3}).(\d{1,3}).(\d{1,3}):(\d{1,5})` — note the *unescaped*
dots, which match any character except a newline.  `re.search` yields the
leftmost match, disambiguated by greedy backtracking: each `{1,3}` tries
3, 2, 1 digits in that order and `{1,5}` tries 5 … 1.  The matcher below
implements exactly that search order.  (`\d` is modelled as the ASCII
digits, the relevant case for resource strings.) -/

/-- Python `str.strip()`: drop whitespace from both ends. -/
def stripChars (cs : List Char) : List Char :=
  ((cs.dropWhile Char.isWhitespace).reverse.dropWhile Char.isWhitespace).reverse

/-- `int(...)` on a decimal digit string. -/
def digitsToNat (g : List Char) : Nat :=
  g.foldl (fun n c => 10 * n + (c.toNat - '0'.toNat)) 0

/-- Match `\d{l}` at the front: exactly `l` digits, returning the run and
the remainder. -/
def digitRunAt (t : List Char) (l : Nat) : Option (List Char × List Char) :=
  if (t.take l).length = l ∧ (t.take l).all Char.isDigit then
    some (t.take l, t.drop l)
  else none

/-- Match `\d{l}` followed by `.` (any character except `'\n'`). -/
def octetAt (t : List Char) (l : Nat) : Option (List Char × Char × List Char) :=
  match digitRunAt t l with
  | none => none
  | some (g, rest) =>
    match rest with
    | [] => none
    | c :: rest' => if c ≠ '\n' then some (g, c, rest') else none

/-- Match `\d{l}` followed by the literal `':'`. -/
def colonRunAt (t : List Char) (l : Nat) : Option (List Char × List Char) :=
  match digitRunAt t l with
  | none => none
  | some (g, rest) =>
    match rest with
    | [] => none
    | c :: rest' => if c = ':' then some (g, rest') else none

/-- The five group strings of a successful match. -/
abbrev IPGroups := List Char × List Char × List Char × List Char × List Char

/-- First success of `f` over `xs`, in list order (the backtracking order). -/
def firstHit : List α → (α → Option β) → Option β
  | [], _ => none
  | a :: t, f =>
    match f a with
    | some b => some b
    | none => firstHit t f

/-- Attempt the whole pattern at one start position with fixed group
lengths. -/
def matchTuple (t : List Char) (l1 l2 l3 l4 lp : Nat) : Option IPGroups :=
  match octetAt t l1 with
  | none => none
  | some (g1, _, t1) =>
    match octetAt t1 l2 with
    | none => none
    | some (g2, _, t2) =>
      match octetAt t2 l3 with
      | none => none
      | some (g3, _, t3) =>
        match colonRunAt t3 l4 with
        | none => none
        | some (g4, t4) =>
          match digitRunAt t4 lp with
          | none => none
          | some (gp, _) => some (g1, g2, g3, g4, gp)

/-- Greedy length preferences of `\d{1,3}`. -/
def octLens : List Nat := [3, 2, 1]

/-- Greedy length preferences of `\d{1,5}`. -/
def portLens : List Nat := [5, 4, 3, 2, 1]

/-- Try the pattern at one start position, in Python's greedy backtracking
order over the group lengths. -/
def matchHere (t : List Char) : Option IPGroups :=
  firstHit octLens fun l1 =>
    firstHit octLens fun l2 =>
      firstHit octLens fun l3 =>
        firstHit octLens fun l4 =>
          firstHit portLens fun lp => matchTuple t l1 l2 l3 l4 lp

/-- `re.search`: try each start position from the left. -/
def reSearchIP : List Char → Option IPGroups
  | [] => matchHere []
  | c :: t =>
    match matchHere (c :: t) with
    | some g => some g
    | none => reSearchIP t

/-- `is_IP` (Ports.py lines 152–172): strip, search, then validate the four
octets (each ≤ 255, checked in order with early error return) and the port
(in 1..65535); on success return the dot-joined octet runs and the parsed
port, otherwise `(False, "", -1)`. -/
def isIP (portStr : String) : Bool × String × Int :=
  let s := stripChars portStr.data
  match reSearchIP s with
  | none => (false, "", -1)
  | some (g1, g2, g3, g4, gp) =>
    if digitsToNat g1 ≤ 255 ∧ digitsToNat g2 ≤ 255 ∧
        digitsToNat g3 ≤ 255 ∧ digitsToNat g4 ≤ 255 then
      if 0 < digitsToNat gp ∧ digitsToNat gp ≤ 65535 then
        (true,
         String.mk g1 ++ "." ++ String.mk g2 ++ "." ++ String.mk g3 ++ "."
           ++ String.mk g4,
         (digitsToNat gp : Int))
      else (false, "", -1)
    else (false, "", -1)

/-- A digit run of bounded length: `lo ≤ len ≤ hi`, all decimal digits. -/
def ipRunOk (g : List Char) (lo hi : Nat) : Prop :=
  lo ≤ g.length ∧ g.length ≤ hi ∧ g.all Char.isDigit = true

/-- An occurrence of the `is_IP` pattern inside `cs`: four digit runs of
length 1–3 with one separator character between adjacent runs, a colon,
and a digit run of length 1–5.  `sepOk` is the constraint on the three
separator characters: the claim allows an arbitrary character, the regex's
unescaped `.` matches anything except `'\n'`. -/
def ipDecomp (sepOk : Char → Prop) (cs g1 g2 g3 g4 gp : List Char) : Prop :=
  (∃ pre s1 s2 s3 post,
      cs = pre ++ g1 ++ s1 :: (g2 ++ s2 :: (g3 ++ s3 :: (g4 ++ ':' ::
        (gp ++ post)))) ∧ sepOk s1 ∧ sepOk s2 ∧ sepOk s3) ∧
    ipRunOk g1 1 3 ∧ ipRunOk g2 1 3 ∧ ipRunOk g3 1 3 ∧ ipRunOk g4 1 3 ∧
    ipRunOk gp 1 5

/-- The containment property the specification ascribes to `is_IP`: the
string holds four digit runs with values ≤ 255 separated by arbitrary
single characters, then `':'` and a port value in 1..65535. -/
def claimContainsIP (s : String) : Prop :=
  ∃ g1 g2 g3 g4 gp,
    ipDecomp (fun _ => True) s.data g1 g2 g3 g4 gp ∧
      digitsToNat g1 ≤ 255 ∧ digitsToNat g2 ≤ 255 ∧ digitsToNat g3 ≤ 255 ∧
      digitsToNat g4 ≤ 255 ∧ 1 ≤ digitsToNat gp ∧ digitsToNat gp ≤ 65535

/-- Python `str.startswith` on the underlying character lists. -/
def pyStartsWith (s pre : String) : Bool :=
  pre.data.isPrefixOf s.data

/-- The port-type dispatch of `Ports.get_port` (Ports.py lines 175–237):
the prefix of the resource string selects the Port subclass; the model
returns the subclass's type name (`type(self).__name__[:-4]`), or `none`
when no branch matches and the function returns `False`. -/
def resourceKind (id : String) : Option String :=
  if pyStartsWith id "GPIB" then some "GPIB"
  else if pyStartsWith id "PXI" then some "PXI"
  else if pyStartsWith id "ASRL" then some "ASRL"
  else if pyStartsWith id "TCPIP" then some "TCPIP"
  else if pyStartsWith id "COM" then some "COM"
  else if pyStartsWith id "SOCKET" || (isIP id).1 then some "SOCKET"
  else if pyStartsWith id "USB" || pyStartsWith id "USBTMC" then some "USBTMC"
  else none

/-! ### Port construction and property layering
(Ports.py lines 518–567 and 175–255, PortManager.py lines 145–199) -/

/-- The `port_properties` literal of `Port.__init__` (Ports.py lines
525–542). -/
def basePortProps (id tyName : String) : Props :=
  [("type", .pstr tyName), ("active", .pbool true), ("open", .pbool false),
   ("clear", .pbool true), ("Name", .pnone), ("NrDevices", .pint 0),
   ("debug", .pbool false), ("ID", .pstr id)]

/-- `Port.initialize_port_properties` (lines 551–560): overwrite the live
dict with the port type's `properties` (the shared defaults map); the
`initialize_port_properties_internal` hook is a no-op in every variant of
this file. -/
def reinitProps (props : Props) : Props :=
  dictUpdate props sharedProperties

/-- The property state of a freshly constructed `Port` (`__init__` builds
the base dict and immediately calls `initialize_port_properties`). -/
def portInitProps (id ty : String) : Props :=
  reinitProps (basePortProps id ty)

/-- The property effect of `Port.open` (lines 578–582): run the transport
hook (which touches no `port_properties` key) and set `"open"` to `True`;
callers only invoke it when `port_properties["open"] is False`. -/
def openFlagStep (props : Props) : Props :=
  if dictGet props "open" = some (.pbool false) then
    dictSet props "open" (.pbool true)
  else props

/-- The `port_properties` of the Port returned by `Ports.get_port`
(lines 175–255) for a freshly created port: construct (base + defaults),
re-run `initialize_port_properties` (line 240), merge the caller's
`properties` (line 244), then open if `"open"` is `False` (lines 247–250);
`clear` (lines 252–253) touches no property. -/
def portsGetPortProps (id ty : String) (p : Props) : Props :=
  openFlagStep (dictUpdate (reinitProps (portInitProps id ty)) p)

/-- `all_port_properties` of `PortManager.get_port` (PortManager.py lines
159–161): `{}` updated with `port_type.properties` of every registered
kind — all aliases of the one shared defaults dict.  The registry
(Ports.py lines 1453–1463) holds COM, GPIB, PXI, USBTMC, TCPIP, SOCKET. -/
def allPortProperties : Props :=
  [COM_properties, GPIB_properties, PXI_properties, USBTMC_properties,
   TCPIP_properties, SOCKET_properties].foldl dictUpdate []

/-- `PortManager.get_port` (PortManager.py lines 145–199), modelled on the
port-properties state.  `cache` is the entry of `self._ports` for
`resource` (`none` when absent).  Returns the list of property keys that
trigger the unknown-key diagnostic (lines 162–165) and the resulting
port's property dict (`none` when `Ports.get_port` fails to resolve the
resource kind and the call returns `False`).  The dialog merge of lines
170–171 uses pysweepme's default `get_port_properties_from_dialog`, which
returns `{}`. -/
def pmGetPort (cache : Option Props) (resource : String) (p : Props) :
    List String × Option Props :=
  let diags := (dictKeys p).filter (fun k => ¬ dictHasKey allPortProperties k)
  match cache with
  | some cached =>
    (diags, some (openFlagStep (dictUpdate (reinitProps cached) p)))
  | none =>
    match resourceKind resource with
    | none => (diags, none)
    | some ty => (diags, some (portsGetPortProps resource ty p))

/-- The port-properties component of `pmGetPort`. -/
def pmGetPortProps (cache : Option Props) (resource : String) (p : Props) :
    Option Props :=
  (pmGetPort cache resource p).2

/-- The port-properties state after `PortManager.get_port(resource, p1)`
on an empty cache followed by `PortManager.get_port(resource, p2)` hitting
the now-cached port. -/
def pmTwoCallProps (resource : String) (p1 p2 : Props) : Option Props :=
  (pmGetPortProps none resource p1).bind fun cached =>
    pmGetPortProps (some cached) resource p2

/-- The same computation as `pmGetPortProps` with the unknown-key check
removed (the check of PortManager.py lines 157–165 only emits debug
messages; it feeds nothing else). -/
def pmGetPortPropsNoCheck (cache : Option Props) (resource : String)
    (p : Props) : Option Props :=
  match cache with
  | some cached =>
    some (openFlagStep (dictUpdate (reinitProps cached) p))
  | none =>
    match resourceKind resource with
    | none => none
    | some ty => some (portsGetPortProps resource ty p)

/-! ### `PortManager.get_resources_available` (PortManager.py lines 86–143)

The cache `self._ports` is modelled as an ordered list of
`(resource key, port_properties)` pairs; the discovery pass
(`find_resources`, which performs I/O) is a parameter giving the fresh
resource list per registered kind.  Dict lookups that can raise `KeyError`
are modelled in `Except Unit`. -/

/-- `d[k]` with Python's `KeyError` on a missing key. -/
def lookupKey (props : Props) (k : String) : Except Unit PValue :=
  match dictGet props k with
  | some v => .ok v
  | none => .error ()

/-- Python `value in list_of_strings` for a value taken from a dict: only a
string value can compare equal to a string. -/
def pvalueInStrings (v : PValue) (ts : List String) : Bool :=
  match v with
  | .pstr t => ts.contains t
  | _ => false

/-- First index at which `needle` occurs in `hay` (Python `str.find` /
the `in` operator). -/
def findSubstr (hay needle : List Char) : Option Nat :=
  if needle.isPrefixOf hay then some 0
  else
    match hay with
    | [] => none
    | _ :: t => (findSubstr t needle).map (· + 1)

/-- Python `needle in hay` on strings. -/
def containsSub (hay needle : List Char) : Bool :=
  (findSubstr hay needle).isSome

/-- The keys of the `port_types` registry (Ports.py lines 1453–1463). -/
def registeredKinds : List String := ["COM", "GPIB", "PXI", "USBTMC", "TCPIP", "SOCKET"]

/-- The first loop of `get_resources_available` (lines 104–112): rename
`"USB"` to `"USBTMC"`, then concatenate `find_resources()` of every
requested kind present in the registry. -/
def freshDiscoveryList (ptypes : List String) (discovered : String → List String) :
    List String :=
  ptypes.foldl
    (fun acc t =>
      let t2 := if t = "USB" then "USBTMC" else t
      if registeredKinds.contains t2 then acc ++ discovered t2 else acc)
    []

/-- Does the entry's `"type"` value lie in the requested kinds
(`port_properties["type"] in port_types`)? -/
def typeMatches (props : Props) (ptypes : List String) : Bool :=
  match dictGet props "type" with
  | some v => pvalueInStrings v ptypes
  | none => false

/-- The second loop (lines 114–116): set `"active"` to `False` on every
cached port of a requested kind. -/
def markInactive : List (String × Props) → List String →
    Except Unit (List (String × Props))
  | [], _ => .ok []
  | e :: t, ptypes => do
    let v ← lookupKey e.2 "type"
    let e' :=
      if pvalueInStrings v ptypes then (e.1, dictSet e.2 "active" (.pbool false))
      else e
    let rest ← markInactive t ptypes
    pure (e' :: rest)

/-- The third and fourth loops (lines 118–127): collect every cached port
of a requested kind whose `"active"` value `is False`, then delete those
entries; the net effect on the cache list. -/
def pruneInactive : List (String × Props) → List String →
    Except Unit (List (String × Props))
  | [], _ => .ok []
  | e :: t, ptypes => do
    let v ← lookupKey e.2 "type"
    let keep ←
      if pvalueInStrings v ptypes then do
        let a ← lookupKey e.2 "active"
        pure (decide (a ≠ PValue.pbool false))
      else
        pure true
    let rest ← pruneInactive t ptypes
    pure (if keep then e :: rest else rest)

/-- The last loop (lines 130–141): for every remaining cached port of a
requested kind, append its `port_properties["resource"]` — filtered
through the identification strings for USB/USBTMC ports whose
`"identification"` is not `None`.  (No key `"resource"` is ever written by
`Port`; reaching that lookup would raise `KeyError`.) -/
def listActiveCached : List (String × Props) → List String → List String →
    Except Unit (List PValue)
  | [], _, _ => .ok []
  | e :: t, ptypes, pident => do
    let v ← lookupKey e.2 "type"
    let here ←
      if pvalueInStrings v ptypes then do
        let idv ← lookupKey e.2 "identification"
        if idv ≠ PValue.pnone ∧ pvalueInStrings v ["USB", "USBTMC"] then
          match idv with
          | .pstr idstr =>
            if pident.any (fun q => containsSub idstr.data q.data) then do
              let r ← lookupKey e.2 "resource"
              pure [r]
            else
              pure []
          | _ => .error ()
        else do
          let r ← lookupKey e.2 "resource"
          pure [r]
      else
        pure []
    let rest ← listActiveCached t ptypes pident
    pure (here ++ rest)

/-- `PortManager.get_resources_available` (lines 86–143): returns the
combined resource list (fresh discoveries as strings, plus the surviving
cached entries' `"resource"` values) and the cache state after the call. -/
def getResourcesAvailable (cache : List (String × Props)) (ptypes : List String)
    (pident : List String) (discovered : String → List String) :
    Except Unit (List PValue × List (String × Props)) := do
  let portList := (freshDiscoveryList ptypes discovered).map PValue.pstr
  let cache2 ← markInactive cache ptypes
  let cache3 ← pruneInactive cache2 ptypes
  let extra ← listActiveCached cache3 ptypes pident
  pure (portList ++ extra, cache3)

/-! ### Inter-write delay (Ports.py lines 1102–1124 and 877–879)

Wall-clock time is modelled as an explicit rational clock threaded through
the calls: `time.perf_counter()` reads it and `time.sleep(0.01)` advances
it by exactly one hundredth (a real sleep is at least that long). -/

/-- The busy-wait loop opening `COMport.write_internal` (lines 1104–1105):
`while perf_counter() - actualwritetime < delay: sleep(0.01)`.  Returns the
clock value at which the loop exits. -/
def comBusyWait (now prev delay : ℚ) : ℚ :=
  if now - prev < delay then comBusyWait (now + 1 / 100) prev delay else now
termination_by (⌈(prev + delay - now) * 100⌉).toNat
decreasing_by
  rename_i h
  have hpos : (0 : ℚ) < (prev + delay - now) * 100 := by
    have : (0 : ℚ) < prev + delay - now := by linarith
    positivity
  have hrw : (prev + delay - (now + 1 / 100)) * 100 = (prev + delay - now) * 100 - 1 := by
    ring
  rw [hrw, Int.ceil_sub_one]
  have hc : 0 < ⌈(prev + delay - now) * 100⌉ := Int.ceil_pos.mpr hpos
  omega

/-- `COMport.write_internal` timing (lines 1102–1124): busy-wait, transmit,
then record `actualwritetime = perf_counter()`.  Returns the transmission
time and the new `actualwritetime`. -/
def comWriteSchedule (now prev delay : ℚ) : ℚ × ℚ :=
  let t := comBusyWait now prev delay
  (t, t)

/-- `USBTMCport.write_internal` (lines 877–879): a bare `self.port.write`
— no delay loop, no sleep, no `actualwritetime` bookkeeping.  The
transmission happens right at the call time. -/
def usbtmcWriteSchedule (now prev _delay : ℚ) : ℚ × ℚ :=
  (now, prev)

/-! ### Idempotent open/close (Ports.py lines 578–594, 1083–1095, 943–970) -/

/-- Observable state of a `COMport` for open/close: the
`port_properties["open"]` flag and the OS-level `serial.Serial.is_open`.
The `serial.Serial()` object exists from `__init__` (line 1050) on. -/
structure ComState where
  flagOpen : Bool
  osOpen : Bool
  deriving DecidableEq, Repr

/-- `COMport.open_internal` (lines 1083–1091): refresh settings, then open
the device — closing it first when it is already open. -/
def comOpenInternal (s : ComState) : ComState :=
  { s with osOpen := true }

/-- `COMport.close_internal` (lines 1093–1095): close the device (a no-op
in pyserial when already closed) and set the `"open"` property to
`False`. -/
def comCloseInternal (s : ComState) : ComState :=
  { s with osOpen := false, flagOpen := false }

/-- `Port.open` (lines 578–582): run the transport hook, then set the
`"open"` property to `True`. -/
def comOpen (s : ComState) : ComState :=
  { comOpenInternal s with flagOpen := true }

/-- `Port.close` (lines 587–591): run the transport hook, then set the
`"open"` property to `False`. -/
def comClose (s : ComState) : ComState :=
  { comCloseInternal s with flagOpen := false }

/-- Python exceptions surfaced by the open/close models. -/
inductive PyErr where
  | attributeError
  deriving DecidableEq, Repr

/-- Observable state of a `SOCKETport` for open/close: the `"open"` flag
and whether `self.port` holds a socket object (`Port.__init__` leaves it
`None`; only `open_internal` assigns one). -/
structure SockState where
  flagOpen : Bool
  hasHandle : Bool
  deriving DecidableEq, Repr

/-- The state of a `SOCKETport` right after construction (lines 936–941
with `Port.__init__`): not open, `self.port` still `None`. -/
def sockInitState : SockState :=
  { flagOpen := false, hasHandle := false }

/-- `SOCKETport.open_internal` (lines 943–967): create and connect a fresh
socket object, assign it to `self.port`, reset the buffer and derive the
terminations. -/
def sockOpenInternal (s : SockState) : Except PyErr SockState :=
  .ok { s with hasHandle := true }

/-- `SOCKETport.close_internal` (lines 969–970): `self.port.close()` —
an `AttributeError` when `self.port` is still `None`. -/
def sockCloseInternal (s : SockState) : Except PyErr SockState :=
  if s.hasHandle then .ok s else .error .attributeError

/-- `Port.open` on a `SOCKETport`. -/
def sockOpen (s : SockState) : Except PyErr SockState :=
  (sockOpenInternal s).map fun s' => { s' with flagOpen := true }

/-- `Port.close` on a `SOCKETport`. -/
def sockClose (s : SockState) : Except PyErr SockState :=
  (sockCloseInternal s).map fun s' => { s' with flagOpen := false }

/-! ### `SOCKETport.read_internal` (Ports.py lines 999–1039)

`open_internal` (lines 957–965) sets `self.write_termination` from
`SOCKET_EOLwrite` and `self.read_termination` from `SOCKET_EOLread`
(empty string when the property is `None`), and `read_internal` line 1002
binds `eol = self.write_termination`.  The data the socket delivers is a
parameter: `chunks` lists the strings successive `self.port.recv` calls
return, an exhausted list standing for a socket with no pending data
(whose `recv` raises its timeout).  `fuel` bounds the loop iterations,
modelling the overall-`timeout` check of line 1030. -/

/-- Errors of the socket read loop (`socket.timeout` from `recv` and the
`TimeoutError` of line 1032 — the same exception type on Python ≥ 3.10). -/
inductive ReadErr where
  | timeout
  deriving DecidableEq, Repr

/-- Python `str.rstrip(chars)`: drop trailing characters that belong to the
set `chars`; an empty `chars` set strips nothing. -/
def rstripChars (s set : List Char) : List Char :=
  (s.reverse.dropWhile (fun c => set.contains c)).reverse

/-- The loop of `read_internal` over a given `eol`, buffer, and incoming
chunk sequence.  Returns `(answer, new buffer, remaining chunks)`. -/
def socketReadLoop (digits : Nat) (eol : List Char) :
    List Char → List (List Char) → Nat →
    Except ReadErr (List Char × List Char × List (List Char))
  | buffer, chunks, fuel =>
    if 0 < digits then
      if buffer.length < digits then
        match chunks with
        | [] => .error .timeout
        | c :: rest => .ok (buffer ++ c.take (digits - buffer.length), [], rest)
      else
        .ok (buffer.take digits, buffer.drop digits, chunks)
    else
      match findSubstr buffer eol with
      | some idx =>
        .ok (rstripChars (buffer.take (idx + eol.length)) eol,
             buffer.drop (idx + eol.length), chunks)
      | none =>
        match chunks with
        | [] => .error .timeout
        | c :: rest =>
          match fuel with
          | 0 => .error .timeout
          | fuel' + 1 => socketReadLoop digits eol (buffer ++ c) rest fuel'

/-- Communication state of a `SOCKETport` after `open_internal`. -/
structure SockReadState where
  buffer : List Char
  writeTermination : List Char
  readTermination : List Char
  deriving DecidableEq, Repr

/-- `SOCKETport.read_internal` (lines 999–1034): the loop run with
`eol = self.write_termination` (line 1002). -/
def socketReadInternal (digits : Nat) (st : SockReadState)
    (chunks : List (List Char)) (fuel : Nat) :
    Except ReadErr (List Char × List Char × List (List Char)) :=
  socketReadLoop digits st.writeTermination st.buffer chunks fuel

/-! ### `PrologixGPIBcontroller` (Ports.py lines 1231–1431)

Transmitted serial messages are recorded as character lists, in order. -/

/-- Controller state: `self._current_gpib_ID` and the transcript of
messages handed to `self.port.write`. -/
structure PrologixState where
  currentGpibID : Option (List Char)
  sent : List (List Char)
  deriving DecidableEq, Repr

/-- `PrologixGPIBcontroller.__init__` (lines 1233–1252): no device
addressed yet, nothing sent. -/
def prologixInit : PrologixState :=
  { currentGpibID := none, sent := [] }

/-- One `self.port.write(msg)`. -/
def prologixSendRaw (st : PrologixState) (msg : List Char) : PrologixState :=
  { st with sent := st.sent ++ [msg] }

/-- `PrologixGPIBcontroller.write` (lines 1320–1351).  The recursive
`self.write("++addr %s" % ...)` call of line 1338 runs with the default
`ID=""` on a `"++"` command, so it transmits the addr line directly; it is
unfolded here.  The `cmd.replace(...)` calls of lines 1343–1346 discard
their results (Python strings are immutable), so the payload is
transmitted unescaped. -/
def prologixWrite (st : PrologixState) (cmd ID : List Char) : PrologixState :=
  if cmd = [] then st
  else if ID = [] ∨ ("++".data).isPrefixOf cmd then
    prologixSendRaw st (cmd ++ ['\n'])
  else if some ID ≠ st.currentGpibID then
    prologixSendRaw
      (prologixSendRaw { st with currentGpibID := some ID }
        ("++addr ".data ++ ID ++ ['\n']))
      (cmd ++ ['\n'])
  else
    prologixSendRaw st (cmd ++ ['\n'])

/-- The messages one `write` call appends to the serial transcript (used
to state the addressing lemmas). -/
def prologixDelta (st : PrologixState) (cmd ID : List Char) :
    List (List Char) :=
  if cmd = [] then []
  else if ID = [] ∨ ("++".data).isPrefixOf cmd then [cmd ++ ['\n']]
  else if some ID ≠ st.currentGpibID then
    [("++addr ".data) ++ ID ++ ['\n'], cmd ++ ['\n']]
  else [cmd ++ ['\n']]

/-- `PrologixGPIBcontroller.read` (lines 1353–1378): a polling loop, each
iteration transmitting `"++read eoi"` via `self.write` (with its default
`ID=""`) and reading a line; `polls` is the number of iterations the
timeout admits.  Only the transmission/addressing effect is modelled. -/
def prologixRead (st : PrologixState) (ID : List Char) : Nat → PrologixState
  | 0 => st
  | n + 1 => prologixRead (prologixWrite st ("++read eoi".data) []) ID n

/-- Modelled from the spec (Prologix wire protocol, the intent of the
comments at lines 1340–1346): escape ESC first, then CR, LF and `'+'`,
each by prefixing an ESC byte.  The source's `replace` calls drop their
results, so this is what the claim expects, not what the code sends. -/
def replaceAll (s : List Char) (c : Char) (r : List Char) : List Char :=
  s.foldr (fun x acc => if x = c then r ++ acc else x :: acc) []

/-- See `replaceAll`: the four substitutions of the Prologix protocol, ESC
first. -/
def prologixEscape (cmd : List Char) : List Char :=
  let esc := Char.ofNat 27
  let s1 := replaceAll cmd esc [esc, esc]
  let s2 := replaceAll s1 (Char.ofNat 13) [esc, Char.ofNat 13]
  let s3 := replaceAll s2 (Char.ofNat 10) [esc, Char.ofNat 10]
  replaceAll s3 '+' [esc, '+']

/-- Client-visible controller operations: a payload/command write from a
GPIB port (`write(cmd, ID)`) and a read poll (`read(ID)`). -/
inductive POp where
  | pwrite (cmd ID : List Char)
  | pread (ID : List Char) (polls : Nat)
  deriving DecidableEq, Repr

/-- Execute one operation. -/
def prologixStep (st : PrologixState) : POp → PrologixState
  | .pwrite cmd ID => prologixWrite st cmd ID
  | .pread ID polls => prologixRead st ID polls

/-- Execute a trace of operations from a fresh controller. -/
def prologixRun (ops : List POp) : PrologixState :=
  ops.foldl prologixStep prologixInit

/-- The device address carried by a transmitted `++addr` line. -/
def addrOf (msg : List Char) : Option (List Char) :=
  if ("++addr ".data).isPrefixOf msg then some ((msg.drop 7).dropLast)
  else none

/-- The address of the last `++addr` line in a transcript. -/
def lastAddr (msgs : List (List Char)) : Option (List Char) :=
  (msgs.filterMap addrOf).getLast?

/-- Number of `++addr` lines in a transcript. -/
def addrCount (msgs : List (List Char)) : Nat :=
  (msgs.filterMap addrOf).length

/-! ## Lemmas -/

theorem dictGet_dictSet_self (d : Props) (k : String) (v : PValue) :
    dictGet (dictSet d k v) k = some v := by
  induction d with
  | nil => simp [dictSet, dictGet]
  | cons kv t ih =>
    by_cases h : kv.1 = k
    · simp [dictSet, dictGet, h]
    · simp [dictSet, dictGet, h, ih]

theorem dictGet_dictSet_other (d : Props) (k k' : String) (v : PValue)
    (hne : k' ≠ k) : dictGet (dictSet d k v) k' = dictGet d k' := by
  induction d with
  | nil => simp [dictSet, dictGet, Ne.symm hne]
  | cons kv t ih =>
    by_cases h : kv.1 = k
    · simp [dictSet, dictGet, h, Ne.symm hne, hne]
    · by_cases h' : kv.1 = k'
      · simp [dictSet, dictGet, h, h', hne]
      · simp [dictSet, dictGet, h, h', ih]

theorem dictGet_dictUpdate (d p : Props) (k : String) :
    dictGet (dictUpdate d p) k = oget (dictGetLast p k) (dictGet d k) := by
  induction p generalizing d with
  | nil => simp [dictUpdate, dictGetLast, oget]
  | cons kv t ih =>
    have step : dictUpdate d (kv :: t) = dictUpdate (dictSet d kv.1 kv.2) t := by
      simp [dictUpdate]
    rw [step, ih]
    cases hlast : dictGetLast t k with
    | some w => simp [dictGetLast, hlast, oget]
    | none =>
      by_cases hk : kv.1 = k
      · subst hk
        simp [dictGetLast, hlast, oget, dictGet_dictSet_self]
      · simp [dictGetLast, hlast, oget, hk,
          dictGet_dictSet_other d kv.1 k kv.2 (fun h => hk h.symm)]

theorem dictGetLast_eq_none_of_not_mem (p : Props) (k : String)
    (h : k ∉ dictKeys p) : dictGetLast p k = none := by
  induction p with
  | nil => simp [dictGetLast]
  | cons kv t ih =>
    simp only [dictKeys, List.map_cons, List.mem_cons] at h
    push_neg at h
    have hk : kv.1 ≠ k := fun hh => h.1 hh.symm
    have ht : k ∉ dictKeys t := by simpa [dictKeys] using h.2
    simp [dictGetLast, ih ht, hk, oget]

/-- Lookup through an update at a key the update does not mention. -/
theorem dictGet_dictUpdate_not_mem (d p : Props) (k : String)
    (h : k ∉ dictKeys p) : dictGet (dictUpdate d p) k = dictGet d k := by
  rw [dictGet_dictUpdate, dictGetLast_eq_none_of_not_mem p k h]
  rfl

theorem pmGetPortProps_eq_noCheck (cache : Option Props) (resource : String)
    (p : Props) :
    pmGetPortProps cache resource p = pmGetPortPropsNoCheck cache resource p := by
  cases cache with
  | some cached => rfl
  | none =>
    simp only [pmGetPortProps, pmGetPort, pmGetPortPropsNoCheck]
    cases resourceKind resource <;> rfl

/-- Keyed dicts with no duplicate keys: first and last occurrence agree. -/
theorem dictGetLast_eq_dictGet_of_nodup (d : Props)
    (h : (dictKeys d).Nodup) (k : String) :
    dictGetLast d k = dictGet d k := by
  induction d with
  | nil => rfl
  | cons kv t ih =>
    simp only [dictKeys, List.map_cons, List.nodup_cons] at h
    by_cases hk : kv.1 = k
    · subst hk
      have : dictGetLast t kv.1 = none :=
        dictGetLast_eq_none_of_not_mem t kv.1 (by simpa [dictKeys] using h.1)
      simp [dictGetLast, dictGet, this, oget]
    · have := ih (by simpa [dictKeys] using h.2)
      simp only [dictGetLast, dictGet, hk, if_neg hk, this]
      cases dictGet t k <;> simp [oget]

theorem dictGet_isSome_of_mem (d : Props) (k : String)
    (h : k ∈ dictKeys d) : (dictGet d k).isSome := by
  induction d with
  | nil => simp [dictKeys] at h
  | cons kv t ih =>
    by_cases hk : kv.1 = k
    · simp [dictGet, hk]
    · simp only [dictKeys, List.map_cons, List.mem_cons] at h
      rcases h with h | h
      · exact absurd h.symm hk
      · simpa [dictGet, hk] using ih (by simpa [dictKeys] using h)

theorem digitRunAt_sound {t : List Char} {l : Nat} {g rest : List Char}
    (h : digitRunAt t l = some (g, rest)) :
    t = g ++ rest ∧ g.length = l ∧ g.all Char.isDigit = true := by
  unfold digitRunAt at h
  split at h
  · rename_i hc
    simp only [Option.some.injEq, Prod.mk.injEq] at h
    obtain ⟨hg, hr⟩ := h
    subst hg; subst hr
    exact ⟨(List.take_append_drop l t).symm, hc.1, hc.2⟩
  · exact absurd h (by simp)

theorem octetAt_sound {t : List Char} {l : Nat} {g : List Char} {c : Char}
    {rest : List Char} (h : octetAt t l = some (g, c, rest)) :
    t = g ++ c :: rest ∧ g.length = l ∧ g.all Char.isDigit = true ∧
      c ≠ '\n' := by
  unfold octetAt at h
  cases hd : digitRunAt t l with
  | none => rw [hd] at h; exact absurd h (by simp)
  | some pr =>
    obtain ⟨g0, rest0⟩ := pr
    rw [hd] at h
    obtain ⟨ht, hl, hdig⟩ := digitRunAt_sound hd
    cases rest0 with
    | nil => exact absurd h (by simp)
    | cons c0 rest' =>
      simp only at h
      split at h
      · rename_i hnl
        simp only [Option.some.injEq, Prod.mk.injEq] at h
        obtain ⟨hg, hc, hr⟩ := h
        subst hg; subst hc; subst hr
        exact ⟨ht, hl, hdig, hnl⟩
      · exact absurd h (by simp)

theorem colonRunAt_sound {t : List Char} {l : Nat} {g rest : List Char}
    (h : colonRunAt t l = some (g, rest)) :
    t = g ++ ':' :: rest ∧ g.length = l ∧ g.all Char.isDigit = true := by
  unfold colonRunAt at h
  cases hd : digitRunAt t l with
  | none => rw [hd] at h; exact absurd h (by simp)
  | some pr =>
    obtain ⟨g0, rest0⟩ := pr
    rw [hd] at h
    obtain ⟨ht, hl, hdig⟩ := digitRunAt_sound hd
    cases rest0 with
    | nil => exact absurd h (by simp)
    | cons c0 rest' =>
      simp only at h
      split at h
      · rename_i hcol
        simp only [Option.some.injEq, Prod.mk.injEq] at h
        obtain ⟨hg, hr⟩ := h
        subst hg; subst hr
        subst hcol
        exact ⟨ht, hl, hdig⟩
      · exact absurd h (by simp)

theorem matchTuple_sound {t : List Char} {l1 l2 l3 l4 lp : Nat}
    {g1 g2 g3 g4 gp : List Char}
    (h : matchTuple t l1 l2 l3 l4 lp = some (g1, g2, g3, g4, gp)) :
    (∃ s1 s2 s3 post,
        t = g1 ++ s1 :: (g2 ++ s2 :: (g3 ++ s3 :: (g4 ++ ':' ::
          (gp ++ post)))) ∧ s1 ≠ '\n' ∧ s2 ≠ '\n' ∧ s3 ≠ '\n') ∧
      g1.length = l1 ∧ g2.length = l2 ∧ g3.length = l3 ∧ g4.length = l4 ∧
      gp.length = lp ∧
      g1.all Char.isDigit = true ∧ g2.all Char.isDigit = true ∧
      g3.all Char.isDigit = true ∧ g4.all Char.isDigit = true ∧
      gp.all Char.isDigit = true := by
  unfold matchTuple at h
  cases h1 : octetAt t l1 with
  | none => rw [h1] at h; exact absurd h (by simp)
  | some tr1 =>
    obtain ⟨g1', c1, t1⟩ := tr1
    rw [h1] at h
    dsimp only at h
    cases h2 : octetAt t1 l2 with
    | none => rw [h2] at h; exact absurd h (by simp)
    | some tr2 =>
      obtain ⟨g2', c2, t2⟩ := tr2
      rw [h2] at h
      dsimp only at h
      cases h3 : octetAt t2 l3 with
      | none => rw [h3] at h; exact absurd h (by simp)
      | some tr3 =>
        obtain ⟨g3', c3, t3⟩ := tr3
        rw [h3] at h
        dsimp only at h
        cases h4 : colonRunAt t3 l4 with
        | none => rw [h4] at h; exact absurd h (by simp)
        | some tr4 =>
          obtain ⟨g4', t4⟩ := tr4
          rw [h4] at h
          dsimp only at h
          cases h5 : digitRunAt t4 lp with
          | none => rw [h5] at h; exact absurd h (by simp)
          | some tr5 =>
            obtain ⟨gp', t5⟩ := tr5
            rw [h5] at h
            dsimp only at h
            simp only [Option.some.injEq, Prod.mk.injEq] at h
            obtain ⟨e1, e2, e3, e4, e5⟩ := h
            subst e1; subst e2; subst e3; subst e4; subst e5
            obtain ⟨ht, hl1, hd1, hn1⟩ := octetAt_sound h1
            obtain ⟨ht1, hl2, hd2, hn2⟩ := octetAt_sound h2
            obtain ⟨ht2, hl3, hd3, hn3⟩ := octetAt_sound h3
            obtain ⟨ht3, hl4, hd4⟩ := colonRunAt_sound h4
            obtain ⟨ht4, hlp, hdp⟩ := digitRunAt_sound h5
            refine ⟨⟨c1, c2, c3, t5, ?_, hn1, hn2, hn3⟩,
              hl1, hl2, hl3, hl4, hlp, hd1, hd2, hd3, hd4, hdp⟩
            rw [ht, ht1, ht2, ht3, ht4]

theorem firstHit_sound {xs : List α} {f : α → Option β} {b : β}
    (h : firstHit xs f = some b) : ∃ a, a ∈ xs ∧ f a = some b := by
  induction xs with
  | nil => exact absurd h (by simp [firstHit])
  | cons a t ih =>
    unfold firstHit at h
    cases ha : f a with
    | some b' =>
      rw [ha] at h
      simp only [Option.some.injEq] at h
      exact ⟨a, by simp, by rw [ha, h]⟩
    | none =>
      rw [ha] at h
      obtain ⟨a', ha', hf⟩ := ih h
      exact ⟨a', by simp [ha'], hf⟩

theorem matchHere_sound {t : List Char} {gs : IPGroups}
    (h : matchHere t = some gs) :
    ∃ l1 l2 l3 l4 lp,
      l1 ∈ octLens ∧ l2 ∈ octLens ∧ l3 ∈ octLens ∧ l4 ∈ octLens ∧
      lp ∈ portLens ∧ matchTuple t l1 l2 l3 l4 lp = some gs := by
  obtain ⟨l1, hm1, h⟩ := firstHit_sound h
  obtain ⟨l2, hm2, h⟩ := firstHit_sound h
  obtain ⟨l3, hm3, h⟩ := firstHit_sound h
  obtain ⟨l4, hm4, h⟩ := firstHit_sound h
  obtain ⟨lp, hmp, h⟩ := firstHit_sound h
  exact ⟨l1, l2, l3, l4, lp, hm1, hm2, hm3, hm4, hmp, h⟩

theorem reSearchIP_sound {t : List Char} {gs : IPGroups}
    (h : reSearchIP t = some gs) :
    ∃ pre rest, t = pre ++ rest ∧ matchHere rest = some gs := by
  induction t with
  | nil => exact ⟨[], [], rfl, h⟩
  | cons c t ih =>
    unfold reSearchIP at h
    cases hm : matchHere (c :: t) with
    | some g =>
      rw [hm] at h
      simp only [Option.some.injEq] at h
      exact ⟨[], c :: t, rfl, by rw [hm, h]⟩
    | none =>
      rw [hm] at h
      dsimp only at h
      obtain ⟨pre, rest, ht, hrest⟩ := ih h
      exact ⟨c :: pre, rest, by simp [ht], hrest⟩

/-- `is_IP` either fails with the exact error triple or succeeds. -/
theorem isIP_cases (s : String) :
    isIP s = (false, "", -1) ∨ (isIP s).1 = true := by
  unfold isIP
  dsimp only
  cases hs : reSearchIP (stripChars s.data) with
  | none => left; rfl
  | some gs =>
    obtain ⟨g1, g2, g3, g4, gp⟩ := gs
    dsimp only
    split_ifs with h255 hport
    · right; rfl
    · left; rfl
    · left; rfl

theorem mem_octLens_bounds {l : Nat} (h : l ∈ octLens) : 1 ≤ l ∧ l ≤ 3 := by
  have h3 : l = 3 ∨ l = 2 ∨ l = 1 := by simpa [octLens] using h
  rcases h3 with rfl | rfl | rfl <;> omega

theorem mem_portLens_bounds {l : Nat} (h : l ∈ portLens) : 1 ≤ l ∧ l ≤ 5 := by
  have h5 : l = 5 ∨ l = 4 ∨ l = 3 ∨ l = 2 ∨ l = 1 := by
    simpa [portLens] using h
  rcases h5 with rfl | rfl | rfl | rfl | rfl <;> omega

theorem dictGet_openFlagStep (props : Props) (k : String) (hne : k ≠ "open") :
    dictGet (openFlagStep props) k = dictGet props k := by
  unfold openFlagStep
  split
  · exact dictGet_dictSet_other _ _ _ _ hne
  · rfl

/-- Re-initialization resets every key of the shared defaults map to its
default value. -/
theorem dictGet_reinit_mem (cached : Props) (k : String)
    (hk : k ∈ dictKeys sharedProperties) :
    dictGet (reinitProps cached) k = dictGet sharedProperties k := by
  unfold reinitProps
  rw [dictGet_dictUpdate, dictGetLast_eq_dictGet_of_nodup _ (by decide)]
  cases hv : dictGet sharedProperties k with
  | none =>
    have := dictGet_isSome_of_mem _ _ hk
    rw [hv] at this
    simp at this
  | some v => simp [oget]

theorem mem_dictKeys_of_dictGetLast_some {p : Props} {k : String} {v : PValue}
    (h : dictGetLast p k = some v) : k ∈ dictKeys p := by
  by_contra hmem
  rw [dictGetLast_eq_none_of_not_mem p k hmem] at h
  exact absurd h (by simp)

/-- The per-entry effect of the inactive-marking loop. -/
def markOne (ptypes : List String) (e : String × Props) : String × Props :=
  if typeMatches e.2 ptypes then (e.1, dictSet e.2 "active" (.pbool false))
  else e

theorem dictGet_type_markOne (ptypes : List String) (e : String × Props) :
    dictGet (markOne ptypes e).2 "type" = dictGet e.2 "type" := by
  unfold markOne
  split
  · exact dictGet_dictSet_other _ _ _ _ (by decide)
  · rfl

theorem markInactive_ok (cache : List (String × Props)) (ptypes : List String)
    (hwf : ∀ e ∈ cache, (dictGet e.2 "type").isSome = true) :
    markInactive cache ptypes = .ok (cache.map (markOne ptypes)) := by
  induction cache with
  | nil => rfl
  | cons e t ih =>
    have he := hwf e (by simp)
    cases hv : dictGet e.2 "type" with
    | none => rw [hv] at he; simp at he
    | some v =>
      have ht := ih (fun e' he' => hwf e' (by simp [he']))
      simp [markInactive, lookupKey, hv, ht, Bind.bind, Except.bind, pure, Except.pure, markOne,
        typeMatches]

theorem pruneInactive_marked (cache : List (String × Props))
    (ptypes : List String)
    (hwf : ∀ e ∈ cache, (dictGet e.2 "type").isSome = true) :
    pruneInactive (cache.map (markOne ptypes)) ptypes =
      .ok (cache.filter (fun e => ! typeMatches e.2 ptypes)) := by
  induction cache with
  | nil => rfl
  | cons e t ih =>
    have he := hwf e (by simp)
    have ht := ih (fun e' he' => hwf e' (by simp [he']))
    cases hv : dictGet e.2 "type" with
    | none => rw [hv] at he; simp at he
    | some v =>
      by_cases hm : pvalueInStrings v ptypes = true
      · have hmt : typeMatches e.2 ptypes = true := by
          simp [typeMatches, hv, hm]
        simp [pruneInactive, markOne, hmt, lookupKey,
          dictGet_dictSet_other e.2 "active" "type" _ (by decide), hv, hm,
          dictGet_dictSet_self, Bind.bind, Except.bind, pure, Except.pure, ht,
          List.filter]
      · have hmt : typeMatches e.2 ptypes = false := by
          simp [typeMatches, hv]
          simpa using hm
        simp [pruneInactive, markOne, hmt, lookupKey, hv,
          Bool.of_not_eq_true hm, Bind.bind, Except.bind, pure, Except.pure, ht,
          List.filter]

theorem listActiveCached_no_match (l : List (String × Props))
    (ptypes pident : List String)
    (hwf : ∀ e ∈ l, (dictGet e.2 "type").isSome = true)
    (hnm : ∀ e ∈ l, typeMatches e.2 ptypes = false) :
    listActiveCached l ptypes pident = .ok [] := by
  induction l with
  | nil => rfl
  | cons e t ih =>
    have he := hwf e (by simp)
    have hm := hnm e (by simp)
    cases hv : dictGet e.2 "type" with
    | none => rw [hv] at he; simp at he
    | some v =>
      have hpv : pvalueInStrings v ptypes = false := by
        simpa [typeMatches, hv] using hm
      have ht := ih (fun e' he' => hwf e' (by simp [he']))
        (fun e' he' => hnm e' (by simp [he']))
      simp [listActiveCached, lookupKey, hv, hpv, Bind.bind, Except.bind,
        pure, Except.pure, ht]

/-- The busy-wait loop never hands control back before `delay` seconds
have elapsed since `prev`. -/
theorem comBusyWait_ge (now prev d : ℚ) : prev + d ≤ comBusyWait now prev d := by
  induction now, prev, d using comBusyWait.induct with
  | case1 now prev d h ih =>
    rw [comBusyWait, if_pos h]
    exact ih
  | case2 now prev d h =>
    rw [comBusyWait, if_neg h]
    linarith [not_lt.mp h]

theorem addrCount_append (a b : List (List Char)) :
    addrCount (a ++ b) = addrCount a + addrCount b := by
  simp [addrCount, List.filterMap_append]

theorem lastAddr_append (a b : List (List Char)) :
    lastAddr (a ++ b) = (lastAddr b).or (lastAddr a) := by
  simp [lastAddr, List.filterMap_append, List.getLast?_append]

theorem addrOf_addrMsg (ID : List Char) :
    addrOf (("++addr ".data) ++ ID ++ ['\n']) = some ID := by
  unfold addrOf
  rw [if_pos]
  · have h7 : (("++addr ".data) ++ ID ++ ['\n']).drop 7 = ID ++ ['\n'] := by
      rw [List.append_assoc]
      exact List.drop_left' rfl
    rw [h7, List.dropLast_concat]
  · rw [List.isPrefixOf_iff_prefix, List.append_assoc]
    exact List.prefix_append _ _

theorem not_isPrefixOf_addr_of_not_pp {cmd : List Char}
    (h : ¬ ("++".data).isPrefixOf cmd) :
    ¬ ("++addr ".data).isPrefixOf cmd := by
  intro hc
  apply h
  rw [List.isPrefixOf_iff_prefix] at hc ⊢
  exact List.IsPrefix.trans (by decide) hc

theorem addrOf_append_newline_none {cmd : List Char}
    (h : ¬ ("++addr ".data).isPrefixOf cmd) :
    addrOf (cmd ++ ['\n']) = none := by
  unfold addrOf
  rw [if_neg]
  intro hpre
  rw [List.isPrefixOf_iff_prefix] at hpre h
  by_cases hlen : ("++addr ".data).length ≤ cmd.length
  · apply h
    have htake := List.prefix_iff_eq_take.mp hpre
    rw [List.take_append_eq_append_take,
      Nat.sub_eq_zero_of_le (by simpa using hlen), List.take_zero,
      List.append_nil] at htake
    rw [htake]
    exact List.take_prefix _ _
  · have hl1 : (("++addr ".data)).length = 7 := rfl
    have hl2 := hpre.length_le
    rw [List.length_append] at hl2
    simp only [List.length_cons, List.length_nil] at hl2
    have hc6 : cmd.length = 6 := by omega
    have heq : ("++addr ".data) = cmd ++ ['\n'] :=
      hpre.eq_of_length (by rw [List.length_append]; simp; omega)
    have hlast := congrArg List.getLast? heq
    rw [List.getLast?_concat] at hlast
    exact absurd hlast (by decide)

theorem prologixWrite_sent (st : PrologixState) (cmd ID : List Char) :
    (prologixWrite st cmd ID).sent = st.sent ++ prologixDelta st cmd ID := by
  unfold prologixWrite prologixDelta prologixSendRaw
  split_ifs <;> simp

theorem prologixWrite_current (st : PrologixState) (cmd ID : List Char) :
    (prologixWrite st cmd ID).currentGpibID =
      if cmd = [] ∨ ID = [] ∨ ("++".data).isPrefixOf cmd then
        st.currentGpibID
      else some ID := by
  unfold prologixWrite prologixSendRaw
  split_ifs with h1 h2 h3 <;> simp_all

/-- The cons-normal form of `addrOf_addrMsg` (the shape `simp` produces). -/
theorem addrOf_addrMsg_cons (ID : List Char) :
    addrOf ('+' :: '+' :: 'a' :: 'd' :: 'd' :: 'r' :: ' ' ::
      (ID ++ ['\n'])) = some ID :=
  addrOf_addrMsg ID

theorem addrCount_prologixWrite (st : PrologixState) (cmd ID : List Char)
    (hman : ¬ ("++addr ".data).isPrefixOf cmd) :
    addrCount (prologixWrite st cmd ID).sent =
      addrCount st.sent +
        (if cmd ≠ [] ∧ ID ≠ [] ∧ ¬ ("++".data).isPrefixOf cmd ∧
            some ID ≠ st.currentGpibID then 1 else 0) := by
  rw [prologixWrite_sent, addrCount_append]
  unfold prologixDelta
  split_ifs with h1 h2 h3 h4 h4 h4 h4 <;>
    simp_all [addrCount, addrOf_append_newline_none hman, addrOf_addrMsg_cons]

theorem prologixWrite_inv (st : PrologixState) (cmd ID : List Char)
    (hman : ¬ ("++addr ".data).isPrefixOf cmd)
    (hst : st.currentGpibID = lastAddr st.sent) :
    (prologixWrite st cmd ID).currentGpibID =
      lastAddr (prologixWrite st cmd ID).sent := by
  rw [prologixWrite_sent, prologixWrite_current, lastAddr_append]
  unfold prologixDelta
  split_ifs with h1 h2 h3 <;>
    simp_all [lastAddr, addrOf_append_newline_none hman, addrOf_addrMsg_cons,
      Option.or]

theorem prologixRead_effects (st : PrologixState) (ID : List Char)
    (polls : Nat) :
    (prologixRead st ID polls).currentGpibID = st.currentGpibID ∧
      addrCount (prologixRead st ID polls).sent = addrCount st.sent ∧
      lastAddr (prologixRead st ID polls).sent = lastAddr st.sent := by
  induction polls generalizing st with
  | zero => exact ⟨rfl, rfl, rfl⟩
  | succ n ih =>
    have hw := prologixWrite_sent st ("++read eoi".data) []
    have hc := prologixWrite_current st ("++read eoi".data) []
    have hd : prologixDelta st ("++read eoi".data) [] =
        [("++read eoi".data) ++ ['\n']] := by
      unfold prologixDelta
      rw [if_neg (by decide), if_pos (Or.inl rfl)]
    have h0 : addrCount [("++read eoi".data) ++ ['\n']] = 0 := by decide
    have hl : lastAddr [("++read eoi".data) ++ ['\n']] = none := by decide
    obtain ⟨ih1, ih2, ih3⟩ :=
      ih (prologixWrite st ("++read eoi".data) [])
    refine ⟨?_, ?_, ?_⟩
    · rw [prologixRead, ih1, hc, if_pos (Or.inr (Or.inl rfl))]
    · rw [prologixRead, ih2, hw, addrCount_append, hd, h0]
      exact Nat.add_zero _
    · rw [prologixRead, ih3, hw, lastAddr_append, hd, hl]
      exact rfl

/-- No operation of the trace transmits a manual `++addr` line. -/
def noManualAddr (ops : List POp) : Prop :=
  ∀ cmd ID, POp.pwrite cmd ID ∈ ops → ¬ ("++addr ".data).isPrefixOf cmd

theorem prologixRun_inv_aux (ops : List POp) :
    ∀ st : PrologixState,
      (∀ cmd ID, POp.pwrite cmd ID ∈ ops →
        ¬ ("++addr ".data).isPrefixOf cmd) →
      st.currentGpibID = lastAddr st.sent →
      (ops.foldl prologixStep st).currentGpibID =
        lastAddr (ops.foldl prologixStep st).sent := by
  induction ops with
  | nil => exact fun st _ hst => hst
  | cons op t ih =>
    intro st h hst
    rw [List.foldl_cons]
    apply ih _ (fun cmd ID hm => h cmd ID (by simp [hm]))
    cases op with
    | pwrite cmd ID =>
      exact prologixWrite_inv st cmd ID (h cmd ID (by simp)) hst
    | pread ID polls =>
      show (prologixRead st ID polls).currentGpibID =
        lastAddr (prologixRead st ID polls).sent
      rw [(prologixRead_effects st ID polls).1,
        (prologixRead_effects st ID polls).2.2]
      exact hst

/-! ## Claim results -/

/-- C9: after module import, every PortType subclass (COM, GPIB, PXI, ASRL,
USBTMC, TCPIP, SOCKET) observes one identical defaults mapping — the
dictionary shared with `PortType.properties`, mutated by each class body —
containing the union of every kind's keys: e.g. the GPIB defaults include
the serial `baudrate` and the socket `SOCKET_EOLwrite`/`SOCKET_EOLread`
keys, rather than isolated per-kind maps. -/
theorem shared_transport_defaults :
    (COM_properties = sharedProperties ∧ GPIB_properties = sharedProperties ∧
      PXI_properties = sharedProperties ∧ ASRL_properties = sharedProperties ∧
      USBTMC_properties = sharedProperties ∧
      TCPIP_properties = sharedProperties ∧
      SOCKET_properties = sharedProperties) ∧
    dictGet GPIB_properties "baudrate" = some (.pint 9600) ∧
    dictGet GPIB_properties "SOCKET_EOLwrite" = some .pnone ∧
    dictGet GPIB_properties "SOCKET_EOLread" = some .pnone ∧
    dictGet COM_properties "GPIB_EOLwrite" = some .pnone ∧
    dictGet USBTMC_properties "baudrate" = some (.pint 9600) ∧
    ((dictKeys portTypeBaseProps ++ dictKeys comUpdateProps ++
        dictKeys gpibUpdateProps ++ dictKeys asrlUpdateProps ++
        dictKeys tcpipUpdateProps ++ dictKeys socketUpdateProps).all
      (fun k => dictHasKey GPIB_properties k)) = true :=
  ⟨⟨rfl, rfl, rfl, rfl, rfl, rfl, rfl⟩, by decide, by decide, by decide,
    by decide, by decide, by decide⟩

/-- C1 counterexample: `PortManager.get_port("COM1", {"custom_xyz": 42})`
followed by `get_port("COM1", {})` leaves the key `"custom_xyz"` — present
only in the first call's overrides and in no defaults map — in the
returned port's `port_properties` with its first-call value:
`initialize_port_properties` only overlays the defaults dict on the live
dict and deletes nothing. -/
theorem prop_layering_counterexample :
    (pmTwoCallProps "COM1" [("custom_xyz", PValue.pint 42)] []).bind
        (fun pr => dictGet pr "custom_xyz") = some (PValue.pint 42) ∧
      dictHasKey sharedProperties "custom_xyz" = false ∧
      dictHasKey (basePortProps "COM1" "COM") "custom_xyz" = false :=
  ⟨by decide, by decide, by decide⟩

/-- C1 (amended): on the second `get_port` call for a cached resource,
`initialize_port_properties` resets every key *of the shared static
defaults map* to its default before the second call's overrides are
merged, so no first-call customization of a defaults-map key survives (the
second call's value wins where given, the static default otherwise); keys
outside the defaults map are not restored and persist across calls. -/
theorem prop_layering_defaults_restored (resource : String) (p1 p2 : Props)
    (k : String) (hk : k ∈ dictKeys sharedProperties)
    (hk2 : k ∉ dictKeys p2)
    (hkind : (resourceKind resource).isSome = true) :
    (pmTwoCallProps resource p1 p2).bind (fun pr => dictGet pr k) =
      dictGet sharedProperties k := by
  obtain ⟨ty, hty⟩ := Option.isSome_iff_exists.mp hkind
  have hne : k ≠ "open" := by
    intro hcontra
    subst hcontra
    exact absurd hk (by decide)
  simp only [pmTwoCallProps, pmGetPortProps, pmGetPort, hty, Option.bind]
  rw [dictGet_openFlagStep _ _ hne, dictGet_dictUpdate_not_mem _ _ _ hk2,
    dictGet_reinit_mem _ _ hk]

/-- Witness for `prop_layering_defaults_restored`: a first call setting
`baudrate` to 115200 followed by a call with empty overrides ends at the
static default `baudrate = 9600`. -/
theorem prop_layering_defaults_restored_witness :
    (pmTwoCallProps "COM1" [("baudrate", PValue.pint 115200)] []).bind
        (fun pr => dictGet pr "baudrate") =
      dictGet sharedProperties "baudrate" :=
  prop_layering_defaults_restored "COM1" [("baudrate", PValue.pint 115200)]
    [] "baudrate" (by decide) (by decide) (by decide)

/-- C8: a property key recognized by no registered transport kind only
produces a diagnostic: the key is reported, the call proceeds exactly as
the same computation without the recognition check, and the unknown key is
still merged into the resulting `port_properties` with its given value. -/
theorem unknown_keys_nonfatal (cache : Option Props) (resource : String)
    (p : Props) (k : String) (v : PValue)
    (hunknown : dictHasKey allPortProperties k = false)
    (hlast : dictGetLast p k = some v) (hne : k ≠ "open") :
    k ∈ (pmGetPort cache resource p).1 ∧
      pmGetPortProps cache resource p =
        pmGetPortPropsNoCheck cache resource p ∧
      ∀ pr ∈ pmGetPortProps cache resource p, dictGet pr k = some v := by
  refine ⟨?_, pmGetPortProps_eq_noCheck cache resource p, ?_⟩
  · have hmem : k ∈ dictKeys p := mem_dictKeys_of_dictGetLast_some hlast
    have hfilter :
        k ∈ (dictKeys p).filter (fun k => ¬ dictHasKey allPortProperties k) := by
      rw [List.mem_filter]
      exact ⟨hmem, by simp [hunknown]⟩
    cases cache with
    | some cached => simpa [pmGetPort] using hfilter
    | none =>
      cases hty : resourceKind resource <;> simpa [pmGetPort, hty] using hfilter
  · intro pr hpr
    cases cache with
    | some cached =>
      simp only [pmGetPortProps, pmGetPort, Option.mem_def,
        Option.some.injEq] at hpr
      subst hpr
      rw [dictGet_openFlagStep _ _ hne, dictGet_dictUpdate, hlast]
      rfl
    | none =>
      simp only [pmGetPortProps, pmGetPort] at hpr
      cases hty : resourceKind resource with
      | none => rw [hty] at hpr; simp at hpr
      | some ty =>
        rw [hty] at hpr
        simp only [Option.mem_def, Option.some.injEq] at hpr
        subst hpr
        unfold portsGetPortProps
        rw [dictGet_openFlagStep _ _ hne, dictGet_dictUpdate, hlast]
        rfl

/-- Witness for `unknown_keys_nonfatal`: a fresh `"COM1"` request with the
unrecognized key `"fancy_key"`. -/
theorem unknown_keys_nonfatal_witness :
    "fancy_key" ∈
        (pmGetPort none "COM1" [("fancy_key", PValue.pstr "x")]).1 ∧
      pmGetPortProps none "COM1" [("fancy_key", PValue.pstr "x")] =
        pmGetPortPropsNoCheck none "COM1" [("fancy_key", PValue.pstr "x")] ∧
      ∀ pr ∈ pmGetPortProps none "COM1" [("fancy_key", PValue.pstr "x")],
        dictGet pr "fancy_key" = some (PValue.pstr "x") :=
  unknown_keys_nonfatal none "COM1" [("fancy_key", PValue.pstr "x")]
    "fancy_key" (PValue.pstr "x") (by decide) (by decide) (by decide)

/-- C2 counterexample: a cached `"COM1"` port of kind COM whose resource
*is* rediscovered by the fresh pass is still evicted —
`get_resources_available` marks every cached port of the requested kinds
inactive and nothing ever marks a rediscovered one active again, so the
returned cache is empty rather than retaining `"COM1"`. -/
theorem stale_eviction_counterexample :
    getResourcesAvailable [("COM1", portsGetPortProps "COM1" "COM" [])]
        ["COM"] [] (fun t => if t = "COM" then ["COM1"] else []) =
      .ok ([PValue.pstr "COM1"], []) := by
  rfl

/-- C2 (amended): `get_resources_available` evicts *every* cached port of
the requested kinds — rediscovered or not — keeping exactly the cached
entries of other kinds unchanged, and returns the freshly discovered
resources alone (the cached-survivors segment of the returned list is
empty).  This holds for every cache whose entries carry a `"type"`
property (every port the code constructs does). -/
theorem stale_eviction_amended (cache : List (String × Props))
    (ptypes pident : List String) (disc : String → List String)
    (hwf : ∀ e ∈ cache, (dictGet e.2 "type").isSome = true) :
    getResourcesAvailable cache ptypes pident disc =
      .ok ((freshDiscoveryList ptypes disc).map PValue.pstr,
        cache.filter (fun e => ! typeMatches e.2 ptypes)) := by
  have hmark := markInactive_ok cache ptypes hwf
  have hprune := pruneInactive_marked cache ptypes hwf
  have hwf' : ∀ e ∈ cache.filter (fun e => ! typeMatches e.2 ptypes),
      (dictGet e.2 "type").isSome = true :=
    fun e he => hwf e (List.mem_of_mem_filter he)
  have hnm : ∀ e ∈ cache.filter (fun e => ! typeMatches e.2 ptypes),
      typeMatches e.2 ptypes = false := by
    intro e he
    have := List.of_mem_filter he
    simpa using this
  have hlist := listActiveCached_no_match _ ptypes pident hwf' hnm
  simp [getResourcesAvailable, hmark, hprune, hlist, Bind.bind, Except.bind,
    pure, Except.pure]

/-- Witness for `stale_eviction_amended`: a COM entry and a SOCKET entry
cached; requesting COM evicts the COM entry (even though rediscovered) and
keeps the SOCKET entry; the returned list is the fresh discovery alone. -/
theorem stale_eviction_amended_witness :
    getResourcesAvailable
        [("COM2", portsGetPortProps "COM2" "COM" []),
         ("1.2.3.4:5", portsGetPortProps "1.2.3.4:5" "SOCKET" [])]
        ["COM"] []
        (fun t => if t = "COM" then ["COM2", "COM7"] else []) =
      .ok ((freshDiscoveryList ["COM"]
          (fun t => if t = "COM" then ["COM2", "COM7"] else [])).map
            PValue.pstr,
        ([("COM2", portsGetPortProps "COM2" "COM" []),
          ("1.2.3.4:5", portsGetPortProps "1.2.3.4:5" "SOCKET" [])].filter
            (fun e => ! typeMatches e.2 ["COM"]))) :=
  stale_eviction_amended
    [("COM2", portsGetPortProps "COM2" "COM" []),
     ("1.2.3.4:5", portsGetPortProps "1.2.3.4:5" "SOCKET" [])]
    ["COM"] [] (fun t => if t = "COM" then ["COM2", "COM7"] else [])
    (by decide)

/-- C5 counterexample: `USBTMCport.write_internal` is a bare transport
write with no delay logic, so with `delay = 0.2` two consecutive writes
can both occur at clock 0 — the gap between the underlying transport
writes is 0, not ≥ 0.2 s. -/
theorem usbtmc_write_no_spacing :
    usbtmcWriteSchedule 0 0 (1 / 5 : ℚ) = (0, 0) ∧
      (usbtmcWriteSchedule 0 (usbtmcWriteSchedule 0 0 (1 / 5 : ℚ)).2
            (1 / 5 : ℚ)).1 -
          (usbtmcWriteSchedule 0 0 (1 / 5 : ℚ)).1 < (1 / 5 : ℚ) := by
  constructor
  · rfl
  · norm_num [usbtmcWriteSchedule]

/-- C5 (amended): the variants that implement spacing — COM (and the
GPIB/PXI ports sharing the same busy-wait loop) — transmit no earlier
than `delay` seconds after the recorded previous-write completion time,
block by sleeping, and record the transmission time as the new reference;
hence two consecutive writes are separated by at least `delay`.  USBTMC
enforces no spacing at all (see the counterexample). -/
theorem com_write_min_spacing :
    (∀ now prev d : ℚ,
        prev + d ≤ (comWriteSchedule now prev d).1 ∧
          (comWriteSchedule now prev d).2 = (comWriteSchedule now prev d).1) ∧
    ∀ now1 now2 prev d : ℚ,
      (comWriteSchedule now1 prev d).1 + d ≤
        (comWriteSchedule now2 (comWriteSchedule now1 prev d).2 d).1 := by
  constructor
  · intro now prev d
    exact ⟨comBusyWait_ge now prev d, rfl⟩
  · intro now1 now2 prev d
    exact comBusyWait_ge now2 (comBusyWait now1 prev d) d

/-- C6 counterexample: a freshly constructed `SOCKETport` has
`port_properties["open"] = False` and `self.port = None`; calling
`close()` runs `self.port.close()` and raises `AttributeError` instead of
returning quietly. -/
theorem close_never_opened_socket_raises :
    sockInitState.flagOpen = false ∧
      sockClose sockInitState = .error PyErr.attributeError :=
  ⟨rfl, rfl⟩

/-- C6 (amended): `open()` on an already-open port leaves the open flag
`True` without raising, and `close()` on an already-closed port leaves it
`False` without raising, provided the underlying transport object exists —
always for COM (the `serial.Serial()` is built in `__init__`), and after
any successful `open` for SOCKET; only a never-opened handle-less port's
`close()` raises. -/
theorem open_close_idempotent (c : ComState) (s : SockState) :
    (c.flagOpen = true → (comOpen c).flagOpen = true) ∧
    (c.flagOpen = false → (comClose c).flagOpen = false) ∧
    (s.flagOpen = true → ∃ s', sockOpen s = .ok s' ∧ s'.flagOpen = true) ∧
    (s.flagOpen = false → s.hasHandle = true →
      ∃ s', sockClose s = .ok s' ∧ s'.flagOpen = false) := by
  refine ⟨fun _ => rfl, fun _ => rfl, fun _ => ⟨_, rfl, rfl⟩, fun _ hh => ?_⟩
  refine ⟨{ s with flagOpen := false }, ?_, rfl⟩
  unfold sockClose sockCloseInternal
  rw [if_pos hh]
  rfl

/-- Witness for `open_close_idempotent` at concrete states: an open COM
port re-opened, a closed COM port re-closed, an open SOCKET port
re-opened, and a closed-but-connected SOCKET port re-closed. -/
theorem open_close_idempotent_witness :
    (comOpen ⟨true, true⟩).flagOpen = true ∧
    (comClose ⟨false, false⟩).flagOpen = false ∧
    (∃ s', sockOpen ⟨true, true⟩ = .ok s' ∧ s'.flagOpen = true) ∧
    (∃ s', sockClose ⟨false, true⟩ = .ok s' ∧ s'.flagOpen = false) :=
  ⟨(open_close_idempotent ⟨true, true⟩ ⟨true, true⟩).1 rfl,
   (open_close_idempotent ⟨false, false⟩ ⟨true, true⟩).2.1 rfl,
   (open_close_idempotent ⟨true, true⟩ ⟨true, true⟩).2.2.1 rfl,
   (open_close_idempotent ⟨true, true⟩ ⟨false, true⟩).2.2.2 rfl rfl⟩

/-- C3: evaluation at the failing input.  A `SOCKETport` opened with
`SOCKET_EOLwrite = None` (write termination `""`) and
`SOCKET_EOLread = "\n"`, with `"PING\n"` buffered, returns `""` from
`read_internal(0)` and leaves the buffer untouched: line 1002 binds the
EOL to `self.write_termination`, and the empty string occurs at index 0 of
any buffer.  Running the same loop with the configured *read* termination
`"\n"` — as the claim states — would return `"PING"` and empty the
buffer. -/
theorem socket_read_uses_write_termination :
    socketReadInternal 0
        { buffer := "PING\n".data, writeTermination := [],
          readTermination := "\n".data } [] 5 =
      .ok ([], "PING\n".data, []) ∧
      socketReadLoop 0 ("\n".data) ("PING\n".data) [] 5 =
        .ok ("PING".data, [], []) :=
  ⟨rfl, rfl⟩

/-- C4: evaluation at the failing input.  With device `"5"` already
addressed, `write("DATA+", "5")` transmits the bytes `"DATA+\n"` — the
`cmd.replace` results are discarded, so no ESC byte precedes the `'+'` —
whereas the escaping the claim (and the code's own comment) demands would
transmit `"DATA" ⧺ ESC ⧺ "+\n"`. -/
theorem prologix_write_unescaped :
    (prologixWrite { currentGpibID := some ("5".data), sent := [] }
        ("DATA+".data) ("5".data)).sent = ["DATA+\n".data] ∧
      prologixEscape ("DATA+".data) ++ ['\n'] =
        "DATA".data ++ [Char.ofNat 27, '+', '\n'] ∧
      "DATA+\n".data ≠ prologixEscape ("DATA+".data) ++ ['\n'] :=
  ⟨rfl, by decide, by decide⟩

/-- C7: for every trace of controller operations that issues no manual
`++addr` line, (i) `_current_gpib_ID` always equals the address of the
last `++addr` command transmitted; (ii) a `write` emits a `++addr` line
exactly when it carries a non-empty non-`++` payload for a device ID
different from that record — and then exactly one; (iii) `read` polling
emits none; so (iv) consecutive write/write-or-read operations for one
GPIB address emit the `++addr` command at most once (once when the address
changes, zero times when it is already current). -/
theorem prologix_addr_cache :
    (∀ ops : List POp, noManualAddr ops →
      (prologixRun ops).currentGpibID = lastAddr (prologixRun ops).sent) ∧
    (∀ (st : PrologixState) (cmd ID : List Char),
      ¬ ("++addr ".data).isPrefixOf cmd →
      addrCount (prologixWrite st cmd ID).sent =
        addrCount st.sent +
          (if cmd ≠ [] ∧ ID ≠ [] ∧ ¬ ("++".data).isPrefixOf cmd ∧
              some ID ≠ st.currentGpibID then 1 else 0)) ∧
    (∀ (st : PrologixState) (ID : List Char) (polls : Nat),
      addrCount (prologixRead st ID polls).sent = addrCount st.sent) ∧
    ∀ (st : PrologixState) (cmd1 cmd2 ID : List Char) (polls : Nat),
      cmd1 ≠ [] → cmd2 ≠ [] → ID ≠ [] →
      ¬ ("++".data).isPrefixOf cmd1 → ¬ ("++".data).isPrefixOf cmd2 →
      addrCount (prologixRead
          (prologixWrite (prologixWrite st cmd1 ID) cmd2 ID) ID polls).sent =
        addrCount st.sent +
          (if some ID ≠ st.currentGpibID then 1 else 0) := by
  refine ⟨fun ops h => prologixRun_inv_aux ops prologixInit h rfl,
    fun st cmd ID h => addrCount_prologixWrite st cmd ID h,
    fun st ID polls => (prologixRead_effects st ID polls).2.1, ?_⟩
  intro st cmd1 cmd2 ID polls h1 h2 hid hp1 hp2
  rw [(prologixRead_effects _ ID polls).2.1,
    addrCount_prologixWrite _ cmd2 ID (not_isPrefixOf_addr_of_not_pp hp2),
    addrCount_prologixWrite _ cmd1 ID (not_isPrefixOf_addr_of_not_pp hp1)]
  have hcur : (prologixWrite st cmd1 ID).currentGpibID = some ID := by
    rw [prologixWrite_current]
    rw [if_neg (by
      rintro (hc | hc | hc)
      exacts [h1 hc, hid hc, hp1 hc])]
  rw [hcur]
  have hz : (if cmd2 ≠ [] ∧ ID ≠ [] ∧ ¬ ("++".data).isPrefixOf cmd2 ∧
      some ID ≠ some ID then 1 else 0) = 0 :=
    if_neg (by rintro ⟨-, -, -, hne⟩; exact hne rfl)
  rw [hz]
  have ha : (if cmd1 ≠ [] ∧ ID ≠ [] ∧ ¬ ("++".data).isPrefixOf cmd1 ∧
        some ID ≠ st.currentGpibID then 1 else 0) =
      (if some ID ≠ st.currentGpibID then 1 else 0) := by
    by_cases hc : some ID ≠ st.currentGpibID
    · rw [if_pos ⟨h1, hid, hp1, hc⟩, if_pos hc]
    · rw [if_neg (fun hcon => hc hcon.2.2.2), if_neg hc]
  rw [ha]
  omega

/-- Witness for `prologix_addr_cache`: a concrete payload write for
address 5, a read poll, and a write-write-read sequence for the same
address from a fresh controller. -/
theorem prologix_addr_cache_witness :
    ((prologixRun [POp.pwrite ("DATA".data) ("5".data)]).currentGpibID =
        lastAddr (prologixRun [POp.pwrite ("DATA".data) ("5".data)]).sent) ∧
      (addrCount (prologixWrite prologixInit ("DATA".data) ("5".data)).sent =
        addrCount prologixInit.sent +
          (if "DATA".data ≠ [] ∧ "5".data ≠ [] ∧
              ¬ ("++".data).isPrefixOf ("DATA".data) ∧
              some ("5".data) ≠ prologixInit.currentGpibID then 1 else 0)) ∧
      (addrCount (prologixRead prologixInit ("5".data) 3).sent =
        addrCount prologixInit.sent) ∧
      (addrCount (prologixRead
            (prologixWrite (prologixWrite prologixInit ("DATA".data)
              ("5".data)) ("NEXT".data) ("5".data)) ("5".data) 2).sent =
        addrCount prologixInit.sent +
          (if some ("5".data) ≠ prologixInit.currentGpibID then 1
           else 0)) :=
  ⟨prologix_addr_cache.1 [POp.pwrite ("DATA".data) ("5".data)]
      (by
        intro cmd ID hm
        simp only [List.mem_singleton, POp.pwrite.injEq] at hm
        rw [hm.1]
        decide),
   prologix_addr_cache.2.1 prologixInit ("DATA".data) ("5".data) (by decide),
   prologix_addr_cache.2.2.1 prologixInit ("5".data) 3,
   prologix_addr_cache.2.2.2 prologixInit ("DATA".data) ("NEXT".data)
     ("5".data) 2 (by decide) (by decide) (by decide) (by decide)
     (by decide)⟩

/-- C10 counterexample: `"999.1.1.1:1 1.2.3.4:5"` contains the valid
substring `"1.2.3.4:5"` demanded by the claim, yet `is_IP` returns
`(False, "", -1)`: the leftmost greedy regex match is `"999.1.1.1:1"`,
whose first octet fails the ≤ 255 validation, and no later match is
tried. -/
theorem isIP_claim_counterexample :
    claimContainsIP "999.1.1.1:1 1.2.3.4:5" ∧
      isIP "999.1.1.1:1 1.2.3.4:5" = (false, "", -1) := by
  constructor
  · refine ⟨"1".data, "2".data, "3".data, "4".data, "5".data,
      ⟨⟨"999.1.1.1:1 ".data, '.', '.', '.', ([] : List Char), by decide,
        trivial, trivial, trivial⟩,
       ⟨by decide, by decide, by decide⟩, ⟨by decide, by decide, by decide⟩,
       ⟨by decide, by decide, by decide⟩, ⟨by decide, by decide, by decide⟩,
       ⟨by decide, by decide, by decide⟩⟩,
      by decide, by decide, by decide, by decide, by decide, by decide⟩
  · decide

/-- C10 (amended): whenever `is_IP` returns `(True, ip, port)`, the
stripped input decomposes per the pattern — four digit runs of length 1–3
with values ≤ 255, separated by single arbitrary non-newline characters,
then `':'` and a digit run of length 1–5 whose value lies in 1..65535 —
with `ip` the dot-join of the four runs and `port` the parsed value; and
every unsuccessful call returns exactly `(False, "", -1)`.  (The claim's
converse direction — containment implies success — is refuted separately:
validation applies only to the leftmost greedy match.) -/
theorem isIP_sound_characterization :
    (∀ s ip p, isIP s = (true, ip, p) →
      ∃ g1 g2 g3 g4 gp,
        ipDecomp (fun c => c ≠ '\n') (stripChars s.data) g1 g2 g3 g4 gp ∧
          digitsToNat g1 ≤ 255 ∧ digitsToNat g2 ≤ 255 ∧
          digitsToNat g3 ≤ 255 ∧ digitsToNat g4 ≤ 255 ∧
          ip = String.mk g1 ++ "." ++ String.mk g2 ++ "." ++ String.mk g3
            ++ "." ++ String.mk g4 ∧
          p = (digitsToNat gp : Int) ∧ 1 ≤ digitsToNat gp ∧
          digitsToNat gp ≤ 65535) ∧
    ∀ s, (isIP s).1 = false → isIP s = (false, "", -1) := by
  constructor
  · intro s ip p h
    unfold isIP at h
    dsimp only at h
    cases hs : reSearchIP (stripChars s.data) with
    | none => rw [hs] at h; exact absurd h (by simp)
    | some gs =>
      obtain ⟨g1, g2, g3, g4, gp⟩ := gs
      rw [hs] at h
      dsimp only at h
      split_ifs at h with h255 hport
      · simp only [Prod.mk.injEq] at h
        obtain ⟨-, hip, hp⟩ := h
        obtain ⟨pre, rest, hsplit, hmh⟩ := reSearchIP_sound hs
        obtain ⟨l1, l2, l3, l4, lp, hm1, hm2, hm3, hm4, hmp, hmt⟩ :=
          matchHere_sound hmh
        obtain ⟨⟨s1, s2, s3, post, hrest, hn1, hn2, hn3⟩,
          hl1, hl2, hl3, hl4, hlp, hd1, hd2, hd3, hd4, hdp⟩ :=
          matchTuple_sound hmt
        obtain ⟨hb1, hb1'⟩ := mem_octLens_bounds hm1
        obtain ⟨hb2, hb2'⟩ := mem_octLens_bounds hm2
        obtain ⟨hb3, hb3'⟩ := mem_octLens_bounds hm3
        obtain ⟨hb4, hb4'⟩ := mem_octLens_bounds hm4
        obtain ⟨hbp, hbp'⟩ := mem_portLens_bounds hmp
        refine ⟨g1, g2, g3, g4, gp,
          ⟨⟨pre, s1, s2, s3, post, ?_, hn1, hn2, hn3⟩,
            ⟨by omega, by omega, hd1⟩, ⟨by omega, by omega, hd2⟩,
            ⟨by omega, by omega, hd3⟩, ⟨by omega, by omega, hd4⟩,
            ⟨by omega, by omega, hdp⟩⟩,
          h255.1, h255.2.1, h255.2.2.1, h255.2.2.2,
          hip.symm, hp.symm, hport.1, hport.2⟩
        rw [hsplit, hrest]
        simp [List.append_assoc]
      · exact absurd h (by simp)
      · exact absurd h (by simp)
  · intro s h
    rcases isIP_cases s with he | ht
    · exact he
    · rw [h] at ht
      exact absurd ht (by simp)

/-- Witness for `isIP_sound_characterization`: instantiated at the input
`"1.2.3.4:5"`, which parses to `("1.2.3.4", 5)`. -/
theorem isIP_sound_characterization_witness :
    ∃ g1 g2 g3 g4 gp,
      ipDecomp (fun c => c ≠ '\n') (stripChars "1.2.3.4:5".data)
          g1 g2 g3 g4 gp ∧
        digitsToNat g1 ≤ 255 ∧ digitsToNat g2 ≤ 255 ∧
        digitsToNat g3 ≤ 255 ∧ digitsToNat g4 ≤ 255 ∧
        "1.2.3.4" = String.mk g1 ++ "." ++ String.mk g2 ++ "." ++
          String.mk g3 ++ "." ++ String.mk g4 ∧
        (5 : Int) = (digitsToNat gp : Int) ∧ 1 ≤ digitsToNat gp ∧
        digitsToNat gp ≤ 65535 :=
  isIP_sound_characterization.1 "1.2.3.4:5" "1.2.3.4" 5 (by decide)

end PySweepMe
